import Mathlib

/-!
Verification of the FPGA SHA-256d mining control-plane driver.

The development shallowly embeds the two C source files of the repository:

* `bitcoin_miner_sdk_xilinx.c` — the SDK driver: register transport,
  parameter loader, job controller (stop/reset pulse, start, current-nonce
  handshake), the test-mode and real-mode polling loops, and `main`.
* `fpga_sha256d_miner_test.c` — the standalone test program: its
  `write_block_header` loader, its inline reset pulse and its polling loop.

Hardware is modelled as an oracle `env : Nat → Nat` giving the 32-bit value
returned by the k-th register read performed by the program.  Every register
access and every sleep is recorded in a trace; the trace list is kept in
reverse chronological order (most recent event first), and statements reverse
it where chronological order matters.  Machine integers are `Nat` reduced
modulo 2^32 at the points where the C code stores into a `uint32_t`.
-/

namespace FpgaMining

/-- A bus-level event: a 32-bit read or write at an absolute address,
or a `usleep` delay (microseconds). -/
inductive Event where
  | rd (addr value : Nat)
  | wr (addr value : Nat)
  | sleep (usec : Nat)
deriving DecidableEq

/-- Hardware-interaction state: how many reads have been performed so far
(used to index the read oracle) and the reverse-chronological event trace. -/
structure HwState where
  reads : Nat
  tr : List Event
deriving DecidableEq

/-- The clean initial state: no reads performed, empty trace. -/
def hw0 : HwState := ⟨0, []⟩

/-- Base address of the miner IP (both source files use the same one). -/
def MINER_BASE_ADDR : Nat := 0x43C00000

/-- Bank offset of the control registers (SDK file). -/
def BANK_0_OFFSET : Nat := 0x0000
/-- Bank offset of the MID_STATE registers (SDK file). -/
def BANK_1_OFFSET : Nat := 0x0100
/-- Bank offset of the RESIDUAL_DATA registers (SDK file). -/
def BANK_2_OFFSET : Nat := 0x0200
/-- Bank offset of the TARGET registers (SDK file). -/
def BANK_3_OFFSET : Nat := 0x0300

/-- SDK control-register offset: soft reset. -/
def CTRL_SRST : Nat := 0x0000
/-- SDK control-register offset: start. -/
def CTRL_START : Nat := 0x0004
/-- SDK control-register offset: current-hash request pulse. -/
def CTRL_CURRENT_HASH_REQ : Nat := 0x0010

/-- SDK status-register offset read by `check_found`. -/
def STATUS_FOUND : Nat := 0x0000
/-- SDK status-register offset read for the not-found/exhausted bit. -/
def STATUS_NOT_FOUND : Nat := 0x0004
/-- SDK status-register offset read by `get_golden_nonce`. -/
def STATUS_GOLDEN_NONCE : Nat := 0x0008
/-- SDK status-register offset read by `get_current_nonce`. -/
def STATUS_CURRENT_NONCE : Nat := 0x000C

/-- Test-program register offset: reset control. -/
def REG_RESET : Nat := 0x00
/-- Test-program register offset: start control. -/
def REG_START : Nat := 0x04
/-- Test-program register offset: found/exhausted status bits. -/
def REG_STATUS : Nat := 0x08
/-- Test-program register offset: golden nonce result. -/
def REG_GOLDEN_NONCE : Nat := 0x0C
/-- Test-program register offset: current-nonce request pulse (unused). -/
def REG_CUR_REQ : Nat := 0x10
/-- Test-program register offset: current nonce value. -/
def REG_CUR_NONCE : Nat := 0x14

/-- Truncation to a 32-bit unsigned value, as performed by a `uint32_t` store. -/
def U32 (n : Nat) : Nat := n % 4294967296

/-- Value returned by the k-th register read under oracle `env`. -/
def readVal (env : Nat → Nat) (k : Nat) : Nat := U32 (env k)

/-- `write_register(offset, value)`: 32-bit store to `MINER_BASE_ADDR + offset`.
Same semantics as `write_reg` in the test program (same base address). -/
def write_register (off v : Nat) (s : HwState) : HwState :=
  { s with tr := Event.wr (MINER_BASE_ADDR + off) (U32 v) :: s.tr }

/-- `read_register(offset)`: 32-bit load from `MINER_BASE_ADDR + offset`;
returns the oracle value for the next read index.  Same semantics as
`read_reg` in the test program. -/
def read_register (env : Nat → Nat) (off : Nat) (s : HwState) : Nat × HwState :=
  (readVal env s.reads,
   ⟨s.reads + 1, Event.rd (MINER_BASE_ADDR + off) (readVal env s.reads) :: s.tr⟩)

/-- `usleep(usec)`: recorded as a delay event. -/
def uSleep (usec : Nat) (s : HwState) : HwState :=
  { s with tr := Event.sleep usec :: s.tr }

/-- `for (i = 0; i < ws.length; i++) write_register(off + i*4, ws[i])` —
the loop shape shared by `write_mid_state`, `write_residual_data` and
`write_target` in the SDK file. -/
def write_words (off : Nat) (ws : List Nat) (s : HwState) : HwState :=
  match ws with
  | [] => s
  | w :: rest => write_words (off + 4) rest (write_register off w s)

/-- `write_mid_state`: 8 words at `BANK_1_OFFSET + i*4`. -/
def write_mid_state (ms : List Nat) (s : HwState) : HwState :=
  write_words BANK_1_OFFSET ms s

/-- `write_residual_data`: 3 words at `BANK_2_OFFSET + i*4`. -/
def write_residual_data (rs : List Nat) (s : HwState) : HwState :=
  write_words BANK_2_OFFSET rs s

/-- `write_target`: 8 words at `BANK_3_OFFSET + i*4`. -/
def write_target (ts : List Nat) (s : HwState) : HwState :=
  write_words BANK_3_OFFSET ts s

/-- `start_mining()`: write 1 to the start control. -/
def start_mining (s : HwState) : HwState :=
  write_register CTRL_START 1 s

/-- `stop_mining()`: assert soft reset, `usleep(1000)`, deassert. -/
def stop_mining (s : HwState) : HwState :=
  write_register CTRL_SRST 0 (uSleep 1000 (write_register CTRL_SRST 1 s))

/-- `check_found()`: read the found status register and mask with 1. -/
def check_found (env : Nat → Nat) (s : HwState) : Nat × HwState :=
  let r := read_register env STATUS_FOUND s
  (r.1 &&& 1, r.2)

/-- `get_golden_nonce()`: read the golden-nonce register. -/
def get_golden_nonce (env : Nat → Nat) (s : HwState) : Nat × HwState :=
  read_register env STATUS_GOLDEN_NONCE s

/-- `get_current_nonce()`: assert the current-hash request, `usleep(1000)`,
deassert, then read the current-nonce register and return that value. -/
def get_current_nonce (env : Nat → Nat) (s : HwState) : Nat × HwState :=
  read_register env STATUS_CURRENT_NONCE
    (write_register CTRL_CURRENT_HASH_REQ 0
      (uSleep 1000 (write_register CTRL_CURRENT_HASH_REQ 1 s)))

/-- `print_mining_status()`: query the current nonce, read the found and
not-found status registers, and (when the raw found value is nonzero)
additionally read the golden nonce.  Only the hardware interactions are
modelled; the printing itself has no register effect. -/
def print_mining_status (env : Nat → Nat) (s : HwState) : HwState :=
  let c := get_current_nonce env s
  let f := read_register env STATUS_FOUND c.2
  let nf := read_register env STATUS_NOT_FOUND f.2
  if f.1 ≠ 0 then (get_golden_nonce env nf.2).2 else nf.2

/-- The constant easy target array of `set_test_difficulty`. -/
def easy_target : List Nat :=
  [0xFFFFFFFF, 0xFFFFFFFF, 0xFFFFFFFF, 0xFFFFFFFF,
   0xFFFFFFFF, 0xFFFFFFFF, 0xFFFFFFFF, 0x000000FF]

/-- `set_test_difficulty()`: write the easy target array. -/
def set_test_difficulty (s : HwState) : HwState :=
  write_target easy_target s

/-- The constant all-zero target array of `set_real_difficulty`. -/
def real_target : List Nat := [0, 0, 0, 0, 0, 0, 0, 0]

/-- `set_real_difficulty()`: write the all-zero target array. -/
def set_real_difficulty (s : HwState) : HwState :=
  write_target real_target s

/-- The fields of `bitcoin_block_header_t` that the program uses
(`prev_block` and `merkle_root` are never read by any modelled code). -/
structure BitcoinBlockHeader where
  version : Nat
  timestamp : Nat
  bits : Nat
  nonce : Nat
deriving DecidableEq

/-- `mining_params_t`. -/
structure MiningParams where
  mid_state : List Nat
  residual_data : List Nat
  target : List Nat
deriving DecidableEq

/-- `process_block_header`: placeholder midstate `0x12345678 + i`, residual
words `{nonce, 0x80000000, 0x00000140}`, and the simplified target — every
word set to `0xFFFFFFFF`, then word 0 overwritten with the low 24 bits
(mantissa) of `bits`.  The exponent `(bits >> 24) & 0xFF` is computed by the
C code but never used. -/
def process_block_header (h : BitcoinBlockHeader) : MiningParams :=
  { mid_state := (List.range 8).map (fun i => 0x12345678 + i)
    residual_data := [U32 h.nonce, 0x80000000, 0x00000140]
    target := (U32 h.bits &&& 0xFFFFFF) :: List.replicate 7 0xFFFFFFFF }

/-- The header literal built by `mining_loop_test` (`time(NULL)` is the
parameter `tNow`). -/
def test_block_header (tNow : Nat) : BitcoinBlockHeader :=
  ⟨0x20000000, tNow, 0x1D00FFFF, 0⟩

/-- The header literal built by `mining_loop_real`. -/
def real_block_header (tNow : Nat) : BitcoinBlockHeader :=
  ⟨0x20000000, tNow, 0x1703FFFC, 0⟩

/-- Three possible terminal results of an SDK polling session. -/
inductive JobOutcome where
  | found (nonce : Nat)
  | exhausted
  | timedOut
deriving DecidableEq

/-- The status-snapshot step at the top of each SDK loop iteration:
`if (iteration % n == 0) print_mining_status();`. -/
def step_pre (n : Nat) (env : Nat → Nat) (it : Nat) (s : HwState) : HwState :=
  if it % n = 0 then print_mining_status env s else s

/-- One iteration of the SDK polling loop body (`cap` is the iteration cap,
`n` the status-print interval, `it` the value of `iteration` on entry):
optional status print; found check (mask 1) — on found read the golden nonce,
stop, and finish; otherwise read the not-found register — if nonzero stop and
finish exhausted; otherwise sleep 100 ms, increment, and on `iteration > cap`
stop and finish timed out; otherwise continue. -/
def mining_step (cap n : Nat) (env : Nat → Nat) (it : Nat) (s : HwState) :
    Option JobOutcome × HwState :=
  let s1 := step_pre n env it s
  let f := check_found env s1
  if f.1 ≠ 0 then
    let g := get_golden_nonce env f.2
    (some (JobOutcome.found g.1), stop_mining g.2)
  else
    let nf := read_register env STATUS_NOT_FOUND f.2
    if nf.1 ≠ 0 then (some JobOutcome.exhausted, stop_mining nf.2)
    else
      let s4 := uSleep 100000 nf.2
      if it + 1 > cap then (some JobOutcome.timedOut, stop_mining s4)
      else (none, s4)

/-- The SDK `while (1)` polling loop, fuel-indexed: `none` in the first
component means the loop was still running after `fuel` iterations. -/
def mining_loop_aux (cap n : Nat) (env : Nat → Nat) :
    Nat → Nat → HwState → Option JobOutcome × HwState
  | 0, _, s => (none, s)
  | fuel + 1, it, s =>
    match mining_step cap n env it s with
    | (some o, s1) => (some o, s1)
    | (none, s1) => mining_loop_aux cap n env fuel (it + 1) s1

/-- The part of `mining_loop_test` before the loop: derive parameters, set the
easy difficulty (a target-bank write), write midstate and residual, start. -/
def mining_setup_test (tNow : Nat) (s : HwState) : HwState :=
  let params := process_block_header (test_block_header tNow)
  start_mining
    (write_residual_data params.residual_data
      (write_mid_state params.mid_state (set_test_difficulty s)))

/-- The part of `mining_loop_real` before the loop. -/
def mining_setup_real (tNow : Nat) (s : HwState) : HwState :=
  let params := process_block_header (real_block_header tNow)
  start_mining
    (write_residual_data params.residual_data
      (write_mid_state params.mid_state (set_real_difficulty s)))

/-- `mining_loop_test`: easy-mode setup then the loop with cap 1000 and
status prints every 10 iterations. -/
def mining_loop_test (tNow : Nat) (env : Nat → Nat) (fuel : Nat) (s : HwState) :
    Option JobOutcome × HwState :=
  mining_loop_aux 1000 10 env fuel 0 (mining_setup_test tNow s)

/-- `mining_loop_real`: real-mode setup then the loop with cap 10000 and
status prints every 100 iterations. -/
def mining_loop_real (tNow : Nat) (env : Nat → Nat) (fuel : Nat) (s : HwState) :
    Option JobOutcome × HwState :=
  mining_loop_aux 10000 100 env fuel 0 (mining_setup_real tNow s)

/-- The SDK `main`: initial `stop_mining()` for a clean state, then dispatch
on the scanned choice — 1 runs the test loop, 2 the real loop, anything else
falls back to the test loop. -/
def sdk_main_run (choice : Int) (tNow : Nat) (env : Nat → Nat) (fuel : Nat) :
    Option JobOutcome × HwState :=
  let s := stop_mining hw0
  if choice = 1 then mining_loop_test tNow env fuel s
  else if choice = 2 then mining_loop_real tNow env fuel s
  else mining_loop_test tNow env fuel s

/-- Test-program `write_reg` (identical semantics to the SDK transport). -/
def write_reg (off v : Nat) (s : HwState) : HwState := write_register off v s

/-- Test-program `read_reg` (identical semantics to the SDK transport). -/
def read_reg (env : Nat → Nat) (off : Nat) (s : HwState) : Nat × HwState :=
  read_register env off s

/-- `for (i = 0; i < k; i++) write_reg(base + i*4, f(i))` — the loop shape of
`write_block_header` in the test program. -/
def write_indexed (base : Nat) (f : Nat → Nat) (k : Nat) (s : HwState) : HwState :=
  (List.range k).foldl (fun acc i => write_reg (base + i * 4) (f i) acc) s

/-- `write_block_header(mid, res, tgt)`: 8 midstate words at `0x100 + 4i`,
then 3 residual words at `0x200 + 4i`, then 8 target words at `0x300 + 4i`. -/
def write_block_header (mid res tgt : Nat → Nat) (s : HwState) : HwState :=
  write_indexed 0x300 tgt 8 (write_indexed 0x200 res 3 (write_indexed 0x100 mid 8 s))

/-- The inline reset pulse in the test program's `main`:
write 1 to `REG_RESET`, `usleep(1000)`, write 0. -/
def test_reset_pulse (s : HwState) : HwState :=
  write_reg REG_RESET 0 (uSleep 1000 (write_reg REG_RESET 1 s))

/-- The midstate literal of the test program's `main`. -/
def tmMid : Nat → Nat := fun i =>
  [0x6a09e667, 0xbb67ae85, 0x3c6ef372, 0xa54ff53a,
   0x510e527f, 0x9b05688c, 0x1f83d9ab, 0x5be0cd19].getD i 0

/-- The residual literal of the test program's `main`. -/
def tmRes : Nat → Nat := fun i => [0x80000000, 0x00000000, 0x00000100].getD i 0

/-- The target literal of the test program's `main`. -/
def tmTgt : Nat → Nat := fun i =>
  [0x0000ffff, 0xffffffff, 0xffffffff, 0xffffffff,
   0xffffffff, 0xffffffff, 0xffffffff, 0xffffffff].getD i 0

/-- The test program's `while (1)` polling loop, fuel-indexed: read the status
register once; bit 0 set — read and report the golden nonce; else bit 1 set —
report not found; else read the current nonce, sleep 10 ms, continue.  It has
no iteration cap and performs no write on exit. -/
def test_poll_aux (env : Nat → Nat) : Nat → HwState → Option JobOutcome × HwState
  | 0, s => (none, s)
  | fuel + 1, s =>
    let st := read_reg env REG_STATUS s
    if st.1 &&& 0x01 ≠ 0 then
      let g := read_reg env REG_GOLDEN_NONCE st.2
      (some (JobOutcome.found g.1), g.2)
    else if st.1 &&& 0x02 ≠ 0 then (some JobOutcome.exhausted, st.2)
    else
      let c := read_reg env REG_CUR_NONCE st.2
      test_poll_aux env fuel (uSleep 10000 c.2)

/-- The test program's `main`: load the block header, reset-pulse the core,
start hashing, then poll. -/
def test_main_run (env : Nat → Nat) (fuel : Nat) : Option JobOutcome × HwState :=
  test_poll_aux env fuel
    (write_reg REG_START 1
      (test_reset_pulse (write_block_header tmMid tmRes tmTgt hw0)))

/-- The status oracle that always returns 0 (nothing ever found/exhausted). -/
def envZero : Nat → Nat := fun _ => 0

/-- The status oracle that always returns 1 (found bit set on first poll). -/
def envOne : Nat → Nat := fun _ => 1

/-- Does this event assert the soft reset (the first write of a `stop_mining`
/ reset pulse)?  No other code path writes 1 to `MINER_BASE_ADDR + 0`. -/
def isStopAssert : Event → Bool
  | Event.wr a v => a == MINER_BASE_ADDR + CTRL_SRST && v == 1
  | _ => false

/-- Number of reset/stop pulses begun in a trace. -/
def stopAssertCount (tr : List Event) : Nat := tr.countP (fun e => isStopAssert e)

/-- The last three events of a completed stop/reset pulse, in the trace's
reverse-chronological order: deassert, 1 ms delay, assert. -/
def stopTailRev : List Event :=
  [Event.wr (MINER_BASE_ADDR + CTRL_SRST) 0, Event.sleep 1000,
   Event.wr (MINER_BASE_ADDR + CTRL_SRST) 1]

/-- Address of an event (0 for sleeps). -/
def evAddr : Event → Nat
  | Event.rd a _ => a
  | Event.wr a _ => a
  | Event.sleep _ => 0

/-- Select a write to the parameter banks (midstate/residual/target). -/
def bankFilter : Event → Option (Nat × Nat)
  | Event.wr a v =>
    if MINER_BASE_ADDR + 0x100 ≤ a ∧ a < MINER_BASE_ADDR + 0x320 then some (a, v)
    else none
  | _ => none

/-- The chronological sequence of (address, value) writes to the parameter
banks contained in a trace. -/
def bankWrites (tr : List Event) : List (Nat × Nat) :=
  tr.reverse.filterMap bankFilter

/-- A "quiet" event neither asserts the reset control nor writes a parameter
bank: everything the polling-loop body emits besides the final stop pulse. -/
def quietEv (e : Event) : Bool := !(isStopAssert e) && (bankFilter e).isNone

/-- The 19 writes `write_block_header` performs, chronologically. -/
def loadJobEvents (mid res tgt : Nat → Nat) : List Event :=
  [Event.wr (MINER_BASE_ADDR + 0x100) (U32 (mid 0)),
   Event.wr (MINER_BASE_ADDR + 0x104) (U32 (mid 1)),
   Event.wr (MINER_BASE_ADDR + 0x108) (U32 (mid 2)),
   Event.wr (MINER_BASE_ADDR + 0x10C) (U32 (mid 3)),
   Event.wr (MINER_BASE_ADDR + 0x110) (U32 (mid 4)),
   Event.wr (MINER_BASE_ADDR + 0x114) (U32 (mid 5)),
   Event.wr (MINER_BASE_ADDR + 0x118) (U32 (mid 6)),
   Event.wr (MINER_BASE_ADDR + 0x11C) (U32 (mid 7)),
   Event.wr (MINER_BASE_ADDR + 0x200) (U32 (res 0)),
   Event.wr (MINER_BASE_ADDR + 0x204) (U32 (res 1)),
   Event.wr (MINER_BASE_ADDR + 0x208) (U32 (res 2)),
   Event.wr (MINER_BASE_ADDR + 0x300) (U32 (tgt 0)),
   Event.wr (MINER_BASE_ADDR + 0x304) (U32 (tgt 1)),
   Event.wr (MINER_BASE_ADDR + 0x308) (U32 (tgt 2)),
   Event.wr (MINER_BASE_ADDR + 0x30C) (U32 (tgt 3)),
   Event.wr (MINER_BASE_ADDR + 0x310) (U32 (tgt 4)),
   Event.wr (MINER_BASE_ADDR + 0x314) (U32 (tgt 5)),
   Event.wr (MINER_BASE_ADDR + 0x318) (U32 (tgt 6)),
   Event.wr (MINER_BASE_ADDR + 0x31C) (U32 (tgt 7))]

/-- The 19 distinct addresses `write_block_header` writes, chronologically. -/
def loadJobAddrs : List Nat :=
  [MINER_BASE_ADDR + 0x100, MINER_BASE_ADDR + 0x104, MINER_BASE_ADDR + 0x108,
   MINER_BASE_ADDR + 0x10C, MINER_BASE_ADDR + 0x110, MINER_BASE_ADDR + 0x114,
   MINER_BASE_ADDR + 0x118, MINER_BASE_ADDR + 0x11C,
   MINER_BASE_ADDR + 0x200, MINER_BASE_ADDR + 0x204, MINER_BASE_ADDR + 0x208,
   MINER_BASE_ADDR + 0x300, MINER_BASE_ADDR + 0x304, MINER_BASE_ADDR + 0x308,
   MINER_BASE_ADDR + 0x30C, MINER_BASE_ADDR + 0x310, MINER_BASE_ADDR + 0x314,
   MINER_BASE_ADDR + 0x318, MINER_BASE_ADDR + 0x31C]

/-- Conformance of one event to the spec's register map: reads only at the
status (0x008), golden-nonce (0x00C) and current-nonce (0x014) offsets;
writes only at the reset (0x000), start (0x004) and request (0x010) controls
or inside the three parameter banks; always at `MINER_BASE_ADDR + offset`. -/
def specMapOk : Event → Bool
  | Event.rd a _ =>
    a == MINER_BASE_ADDR + 0x008 || a == MINER_BASE_ADDR + 0x00C ||
    a == MINER_BASE_ADDR + 0x014
  | Event.wr a _ =>
    a == MINER_BASE_ADDR + 0x000 || a == MINER_BASE_ADDR + 0x004 ||
    a == MINER_BASE_ADDR + 0x010 ||
    (decide (MINER_BASE_ADDR + 0x100 ≤ a) && decide (a < MINER_BASE_ADDR + 0x120)) ||
    (decide (MINER_BASE_ADDR + 0x200 ≤ a) && decide (a < MINER_BASE_ADDR + 0x20C)) ||
    (decide (MINER_BASE_ADDR + 0x300 ≤ a) && decide (a < MINER_BASE_ADDR + 0x320))
  | Event.sleep _ => true

/-- The chronological event list of the SDK easy-mode setup
(`set_test_difficulty`, midstate, residual, start), as literals. -/
def setupTestEvts : List Event :=
  [Event.wr (MINER_BASE_ADDR + 0x300) 0xFFFFFFFF,
   Event.wr (MINER_BASE_ADDR + 0x304) 0xFFFFFFFF,
   Event.wr (MINER_BASE_ADDR + 0x308) 0xFFFFFFFF,
   Event.wr (MINER_BASE_ADDR + 0x30C) 0xFFFFFFFF,
   Event.wr (MINER_BASE_ADDR + 0x310) 0xFFFFFFFF,
   Event.wr (MINER_BASE_ADDR + 0x314) 0xFFFFFFFF,
   Event.wr (MINER_BASE_ADDR + 0x318) 0xFFFFFFFF,
   Event.wr (MINER_BASE_ADDR + 0x31C) 0x000000FF,
   Event.wr (MINER_BASE_ADDR + 0x100) 0x12345678,
   Event.wr (MINER_BASE_ADDR + 0x104) 0x12345679,
   Event.wr (MINER_BASE_ADDR + 0x108) 0x1234567A,
   Event.wr (MINER_BASE_ADDR + 0x10C) 0x1234567B,
   Event.wr (MINER_BASE_ADDR + 0x110) 0x1234567C,
   Event.wr (MINER_BASE_ADDR + 0x114) 0x1234567D,
   Event.wr (MINER_BASE_ADDR + 0x118) 0x1234567E,
   Event.wr (MINER_BASE_ADDR + 0x11C) 0x1234567F,
   Event.wr (MINER_BASE_ADDR + 0x200) 0x00000000,
   Event.wr (MINER_BASE_ADDR + 0x204) 0x80000000,
   Event.wr (MINER_BASE_ADDR + 0x208) 0x00000140,
   Event.wr (MINER_BASE_ADDR + 0x004) 0x00000001]

/-- The chronological event list of the SDK real-mode setup. -/
def setupRealEvts : List Event :=
  [Event.wr (MINER_BASE_ADDR + 0x300) 0,
   Event.wr (MINER_BASE_ADDR + 0x304) 0,
   Event.wr (MINER_BASE_ADDR + 0x308) 0,
   Event.wr (MINER_BASE_ADDR + 0x30C) 0,
   Event.wr (MINER_BASE_ADDR + 0x310) 0,
   Event.wr (MINER_BASE_ADDR + 0x314) 0,
   Event.wr (MINER_BASE_ADDR + 0x318) 0,
   Event.wr (MINER_BASE_ADDR + 0x31C) 0,
   Event.wr (MINER_BASE_ADDR + 0x100) 0x12345678,
   Event.wr (MINER_BASE_ADDR + 0x104) 0x12345679,
   Event.wr (MINER_BASE_ADDR + 0x108) 0x1234567A,
   Event.wr (MINER_BASE_ADDR + 0x10C) 0x1234567B,
   Event.wr (MINER_BASE_ADDR + 0x110) 0x1234567C,
   Event.wr (MINER_BASE_ADDR + 0x114) 0x1234567D,
   Event.wr (MINER_BASE_ADDR + 0x118) 0x1234567E,
   Event.wr (MINER_BASE_ADDR + 0x11C) 0x1234567F,
   Event.wr (MINER_BASE_ADDR + 0x200) 0x00000000,
   Event.wr (MINER_BASE_ADDR + 0x204) 0x80000000,
   Event.wr (MINER_BASE_ADDR + 0x208) 0x00000140,
   Event.wr (MINER_BASE_ADDR + 0x004) 0x00000001]

/-- The 19 parameter-bank writes of an SDK test-mode run, chronologically:
the easy target first, then midstate, then residual. -/
def testRunBankPairs : List (Nat × Nat) :=
  [(MINER_BASE_ADDR + 0x300, 0xFFFFFFFF), (MINER_BASE_ADDR + 0x304, 0xFFFFFFFF),
   (MINER_BASE_ADDR + 0x308, 0xFFFFFFFF), (MINER_BASE_ADDR + 0x30C, 0xFFFFFFFF),
   (MINER_BASE_ADDR + 0x310, 0xFFFFFFFF), (MINER_BASE_ADDR + 0x314, 0xFFFFFFFF),
   (MINER_BASE_ADDR + 0x318, 0xFFFFFFFF), (MINER_BASE_ADDR + 0x31C, 0x000000FF),
   (MINER_BASE_ADDR + 0x100, 0x12345678), (MINER_BASE_ADDR + 0x104, 0x12345679),
   (MINER_BASE_ADDR + 0x108, 0x1234567A), (MINER_BASE_ADDR + 0x10C, 0x1234567B),
   (MINER_BASE_ADDR + 0x110, 0x1234567C), (MINER_BASE_ADDR + 0x114, 0x1234567D),
   (MINER_BASE_ADDR + 0x118, 0x1234567E), (MINER_BASE_ADDR + 0x11C, 0x1234567F),
   (MINER_BASE_ADDR + 0x200, 0x00000000), (MINER_BASE_ADDR + 0x204, 0x80000000),
   (MINER_BASE_ADDR + 0x208, 0x00000140)]

/-- The 19 parameter-bank writes of an SDK real-mode run, chronologically:
the all-zero target first, then midstate, then residual. -/
def realRunBankPairs : List (Nat × Nat) :=
  [(MINER_BASE_ADDR + 0x300, 0), (MINER_BASE_ADDR + 0x304, 0),
   (MINER_BASE_ADDR + 0x308, 0), (MINER_BASE_ADDR + 0x30C, 0),
   (MINER_BASE_ADDR + 0x310, 0), (MINER_BASE_ADDR + 0x314, 0),
   (MINER_BASE_ADDR + 0x318, 0), (MINER_BASE_ADDR + 0x31C, 0),
   (MINER_BASE_ADDR + 0x100, 0x12345678), (MINER_BASE_ADDR + 0x104, 0x12345679),
   (MINER_BASE_ADDR + 0x108, 0x1234567A), (MINER_BASE_ADDR + 0x10C, 0x1234567B),
   (MINER_BASE_ADDR + 0x110, 0x1234567C), (MINER_BASE_ADDR + 0x114, 0x1234567D),
   (MINER_BASE_ADDR + 0x118, 0x1234567E), (MINER_BASE_ADDR + 0x11C, 0x1234567F),
   (MINER_BASE_ADDR + 0x200, 0x00000000), (MINER_BASE_ADDR + 0x204, 0x80000000),
   (MINER_BASE_ADDR + 0x208, 0x00000140)]

/-! ### Basic event-classification lemmas -/

@[simp]
theorem isStopAssert_rd (a v : Nat) : isStopAssert (Event.rd a v) = false := rfl

@[simp]
theorem isStopAssert_sleep (u : Nat) : isStopAssert (Event.sleep u) = false := rfl

@[simp]
theorem isStopAssert_wr_req (v : Nat) :
    isStopAssert (Event.wr (MINER_BASE_ADDR + CTRL_CURRENT_HASH_REQ) v) = false := rfl

@[simp]
theorem isStopAssert_wr_srst0 :
    isStopAssert (Event.wr (MINER_BASE_ADDR + CTRL_SRST) (U32 0)) = false := rfl

@[simp]
theorem isStopAssert_wr_srst1 :
    isStopAssert (Event.wr (MINER_BASE_ADDR + CTRL_SRST) (U32 1)) = true := rfl

@[simp]
theorem bankFilter_rd (a v : Nat) : bankFilter (Event.rd a v) = none := rfl

@[simp]
theorem bankFilter_sleep (u : Nat) : bankFilter (Event.sleep u) = none := rfl

@[simp]
theorem bankFilter_wr_srst (v : Nat) :
    bankFilter (Event.wr (MINER_BASE_ADDR + CTRL_SRST) v) = none := by
  simp only [bankFilter]
  rw [if_neg]
  simp only [MINER_BASE_ADDR, CTRL_SRST]
  omega

@[simp]
theorem bankFilter_wr_req (v : Nat) :
    bankFilter (Event.wr (MINER_BASE_ADDR + CTRL_CURRENT_HASH_REQ) v) = none := by
  simp only [bankFilter]
  rw [if_neg]
  simp only [MINER_BASE_ADDR, CTRL_CURRENT_HASH_REQ]
  omega

theorem countP_stop_eq_zero_of_quiet (es : List Event) (h : es.all quietEv = true) :
    es.countP (fun e => isStopAssert e) = 0 := by
  rw [List.countP_eq_zero]
  intro e he
  have hq := (List.all_eq_true.mp h) e he
  simp only [quietEv, Bool.and_eq_true, Bool.not_eq_true'] at hq
  simp [hq.1]

theorem stopAssertCount_append_quiet (es tr : List Event) (h : es.all quietEv = true) :
    stopAssertCount (es ++ tr) = stopAssertCount tr := by
  simp [stopAssertCount, List.countP_append, countP_stop_eq_zero_of_quiet es h]

theorem bankWrites_cons (e : Event) (tr : List Event) :
    bankWrites (e :: tr) = bankWrites tr ++ (bankFilter e).toList := by
  simp only [bankWrites, List.reverse_cons, List.filterMap_append]
  cases hbf : bankFilter e <;> simp [List.filterMap, hbf]

theorem bankWrites_append_quiet (es tr : List Event) (h : es.all quietEv = true) :
    bankWrites (es ++ tr) = bankWrites tr := by
  simp only [bankWrites, List.reverse_append, List.filterMap_append]
  have hnil : es.reverse.filterMap bankFilter = [] := by
    rw [List.filterMap_eq_nil_iff]
    intro e he
    have hq := (List.all_eq_true.mp h) e (List.mem_reverse.mp he)
    simp only [quietEv, Bool.and_eq_true, Option.isNone_iff_eq_none] at hq
    exact hq.2
  simp [hnil]

/-! ### Per-operation trace lemmas -/

theorem stop_mining_eq (s : HwState) :
    stop_mining s = ⟨s.reads, stopTailRev ++ s.tr⟩ := rfl

theorem stop_mining_take3 (s : HwState) :
    (stop_mining s).tr.take 3 = stopTailRev := rfl

theorem print_mining_status_events (env : Nat → Nat) (s : HwState) :
    ∃ es, (print_mining_status env s).tr = es ++ s.tr ∧ es.all quietEv = true := by
  unfold print_mining_status get_current_nonce get_golden_nonce read_register write_register uSleep
  dsimp only
  split_ifs with h
  · exact ⟨[Event.rd (MINER_BASE_ADDR + STATUS_GOLDEN_NONCE) (readVal env (s.reads + 1 + 1 + 1)),
            Event.rd (MINER_BASE_ADDR + STATUS_NOT_FOUND) (readVal env (s.reads + 1 + 1)),
            Event.rd (MINER_BASE_ADDR + STATUS_FOUND) (readVal env (s.reads + 1)),
            Event.rd (MINER_BASE_ADDR + STATUS_CURRENT_NONCE) (readVal env s.reads),
            Event.wr (MINER_BASE_ADDR + CTRL_CURRENT_HASH_REQ) (U32 0),
            Event.sleep 1000,
            Event.wr (MINER_BASE_ADDR + CTRL_CURRENT_HASH_REQ) (U32 1)], rfl, rfl⟩
  · exact ⟨[Event.rd (MINER_BASE_ADDR + STATUS_NOT_FOUND) (readVal env (s.reads + 1 + 1)),
            Event.rd (MINER_BASE_ADDR + STATUS_FOUND) (readVal env (s.reads + 1)),
            Event.rd (MINER_BASE_ADDR + STATUS_CURRENT_NONCE) (readVal env s.reads),
            Event.wr (MINER_BASE_ADDR + CTRL_CURRENT_HASH_REQ) (U32 0),
            Event.sleep 1000,
            Event.wr (MINER_BASE_ADDR + CTRL_CURRENT_HASH_REQ) (U32 1)], rfl, rfl⟩

theorem step_pre_events (n : Nat) (env : Nat → Nat) (it : Nat) (s : HwState) :
    ∃ es, (step_pre n env it s).tr = es ++ s.tr ∧ es.all quietEv = true := by
  unfold step_pre
  split_ifs
  · exact print_mining_status_events env s
  · exact ⟨[], rfl, rfl⟩

/-! ### Lemmas about one iteration of the SDK polling loop -/

theorem mining_step_char (cap n : Nat) (env : Nat → Nat) (it : Nat) (s : HwState) :
    (∃ g s2, mining_step cap n env it s = (some (JobOutcome.found g), stop_mining s2)) ∨
    (∃ s2, mining_step cap n env it s = (some JobOutcome.exhausted, stop_mining s2)) ∨
    (∃ s2, mining_step cap n env it s = (some JobOutcome.timedOut, stop_mining s2) ∧
      cap < it + 1) ∨
    ((mining_step cap n env it s).1 = none ∧ it + 1 ≤ cap) := by
  unfold mining_step
  dsimp only
  split_ifs with h1 h2 h3
  · exact Or.inl ⟨_, _, rfl⟩
  · exact Or.inr (Or.inl ⟨_, rfl⟩)
  · exact Or.inr (Or.inr (Or.inl ⟨_, rfl, by omega⟩))
  · exact Or.inr (Or.inr (Or.inr ⟨rfl, by omega⟩))

theorem mining_step_none_le (cap n : Nat) (env : Nat → Nat) (it : Nat) (s : HwState)
    (h : (mining_step cap n env it s).1 = none) : it + 1 ≤ cap := by
  rcases mining_step_char cap n env it s with ⟨g, s2, he⟩ | ⟨s2, he⟩ | ⟨s2, he, _⟩ | ⟨_, hle⟩
  · rw [he] at h; exact absurd h (by simp)
  · rw [he] at h; exact absurd h (by simp)
  · rw [he] at h; exact absurd h (by simp)
  · exact hle

theorem mining_step_some_take3 (cap n : Nat) (env : Nat → Nat) (it : Nat) (s : HwState)
    (h : ((mining_step cap n env it s).1).isSome = true) :
    ((mining_step cap n env it s).2).tr.take 3 = stopTailRev := by
  rcases mining_step_char cap n env it s with ⟨g, s2, he⟩ | ⟨s2, he⟩ | ⟨s2, he, _⟩ | ⟨hn, _⟩
  · rw [he]; exact stop_mining_take3 s2
  · rw [he]; exact stop_mining_take3 s2
  · rw [he]; exact stop_mining_take3 s2
  · rw [hn] at h; exact absurd h (by simp)

theorem mining_step_count (cap n : Nat) (env : Nat → Nat) (it : Nat) (s : HwState) :
    stopAssertCount ((mining_step cap n env it s).2).tr =
      stopAssertCount s.tr +
        (if ((mining_step cap n env it s).1).isSome then 1 else 0) := by
  obtain ⟨es, hes, hq⟩ := step_pre_events n env it s
  unfold mining_step
  dsimp only
  split_ifs with h1 h2 h3 <;>
    simp_all [stop_mining, check_found, get_golden_nonce, read_register, write_register,
      uSleep, stopAssertCount, List.countP_cons, List.countP_append,
      countP_stop_eq_zero_of_quiet es hq]

theorem mining_step_bank (cap n : Nat) (env : Nat → Nat) (it : Nat) (s : HwState) :
    bankWrites ((mining_step cap n env it s).2).tr = bankWrites s.tr := by
  obtain ⟨es, hes, hq⟩ := step_pre_events n env it s
  have hb := bankWrites_append_quiet es s.tr hq
  unfold mining_step
  dsimp only
  split_ifs with h1 h2 h3 <;>
    simp [stop_mining, check_found, get_golden_nonce, read_register, write_register,
      uSleep, bankWrites_cons, hes, hb]

theorem mining_step_envZero (cap n it : Nat) (s : HwState) :
    (mining_step cap n envZero it s).1 =
      if cap < it + 1 then some JobOutcome.timedOut else none := by
  unfold mining_step check_found read_register
  dsimp only
  simp only [readVal, envZero, U32, Nat.zero_mod, Nat.zero_and, ne_eq,
    not_true_eq_false, if_false]
  split_ifs with h1 <;> simp_all

/-! ### Lemmas about the whole SDK polling loop -/

theorem mining_loop_aux_isSome (cap n : Nat) (env : Nat → Nat) :
    ∀ fuel it s, cap + 1 ≤ fuel + it → 1 ≤ fuel →
      ((mining_loop_aux cap n env fuel it s).1).isSome = true := by
  intro fuel
  induction fuel with
  | zero => intro it s h h1; omega
  | succ fuel ih =>
    intro it s h _
    rw [mining_loop_aux]
    cases hstep : mining_step cap n env it s with
    | mk o s1 =>
      cases o with
      | some o => simp
      | none =>
        have hb : it + 1 ≤ cap :=
          mining_step_none_le cap n env it s (by rw [hstep])
        dsimp only
        exact ih (it + 1) s1 (by omega) (by omega)

theorem mining_loop_aux_mono (cap n : Nat) (env : Nat → Nat) :
    ∀ fuel1 fuel2 it s, cap + 1 ≤ fuel1 + it → cap + 1 ≤ fuel2 + it →
      1 ≤ fuel1 → 1 ≤ fuel2 →
      mining_loop_aux cap n env fuel1 it s = mining_loop_aux cap n env fuel2 it s := by
  intro fuel1
  induction fuel1 with
  | zero => intro fuel2 it s h1 h2 hf1 hf2; omega
  | succ f ih =>
    intro fuel2 it s h1 h2 hf1 hf2
    cases fuel2 with
    | zero => omega
    | succ f2 =>
      rw [mining_loop_aux, mining_loop_aux]
      cases hstep : mining_step cap n env it s with
      | mk o s1 =>
        cases o with
        | some o => rfl
        | none =>
          have hb : it + 1 ≤ cap :=
            mining_step_none_le cap n env it s (by rw [hstep])
          dsimp only
          exact ih f2 (it + 1) s1 (by omega) (by omega) (by omega) (by omega)

theorem mining_loop_aux_count (cap n : Nat) (env : Nat → Nat) :
    ∀ fuel it s,
      stopAssertCount ((mining_loop_aux cap n env fuel it s).2).tr =
        stopAssertCount s.tr +
          (if ((mining_loop_aux cap n env fuel it s).1).isSome then 1 else 0) := by
  intro fuel
  induction fuel with
  | zero => intro it s; simp [mining_loop_aux]
  | succ fuel ih =>
    intro it s
    have hc := mining_step_count cap n env it s
    rw [mining_loop_aux]
    cases hstep : mining_step cap n env it s with
    | mk o s1 =>
      rw [hstep] at hc
      cases o with
      | some o => simpa using hc
      | none =>
        dsimp only
        rw [ih (it + 1) s1, hc]
        simp

theorem mining_loop_aux_bank (cap n : Nat) (env : Nat → Nat) :
    ∀ fuel it s,
      bankWrites ((mining_loop_aux cap n env fuel it s).2).tr = bankWrites s.tr := by
  intro fuel
  induction fuel with
  | zero => intro it s; simp [mining_loop_aux]
  | succ fuel ih =>
    intro it s
    have hb := mining_step_bank cap n env it s
    rw [mining_loop_aux]
    cases hstep : mining_step cap n env it s with
    | mk o s1 =>
      rw [hstep] at hb
      cases o with
      | some o => simpa using hb
      | none =>
        dsimp only
        rw [ih (it + 1) s1, hb]

theorem mining_loop_aux_take3 (cap n : Nat) (env : Nat → Nat) :
    ∀ fuel it s, ((mining_loop_aux cap n env fuel it s).1).isSome = true →
      ((mining_loop_aux cap n env fuel it s).2).tr.take 3 = stopTailRev := by
  intro fuel
  induction fuel with
  | zero => intro it s h; simp [mining_loop_aux] at h
  | succ fuel ih =>
    intro it s h
    have ht := mining_step_some_take3 cap n env it s
    rw [mining_loop_aux] at h ⊢
    cases hstep : mining_step cap n env it s with
    | mk o s1 =>
      rw [hstep] at h ht
      cases o with
      | some o => simpa using ht (by simp)
      | none => exact ih (it + 1) s1 (by simpa using h)

theorem mining_loop_aux_envZero (cap n : Nat) :
    ∀ fuel it s, cap + 1 ≤ fuel + it → 1 ≤ fuel →
      (mining_loop_aux cap n envZero fuel it s).1 = some JobOutcome.timedOut := by
  intro fuel
  induction fuel with
  | zero => intro it s h h1; omega
  | succ fuel ih =>
    intro it s h _
    have hz := mining_step_envZero cap n it s
    rw [mining_loop_aux]
    cases hstep : mining_step cap n envZero it s with
    | mk o s1 =>
      rw [hstep] at hz
      dsimp only at hz
      by_cases hcap : cap < it + 1
      · rw [if_pos hcap] at hz
        rw [hz]
      · rw [if_neg hcap] at hz
        rw [hz]
        dsimp only
        exact ih (it + 1) s1 (by omega) (by omega)

/-! ### The SDK parameter derivation and setup phases have concrete results -/

theorem process_test_params (tNow : Nat) :
    process_block_header (test_block_header tNow) =
      ⟨[0x12345678, 0x12345679, 0x1234567A, 0x1234567B,
        0x1234567C, 0x1234567D, 0x1234567E, 0x1234567F],
       [0, 0x80000000, 0x00000140],
       [0x00FFFF, 0xFFFFFFFF, 0xFFFFFFFF, 0xFFFFFFFF,
        0xFFFFFFFF, 0xFFFFFFFF, 0xFFFFFFFF, 0xFFFFFFFF]⟩ := by
  simp only [process_block_header, test_block_header]
  rfl

theorem process_real_params (tNow : Nat) :
    process_block_header (real_block_header tNow) =
      ⟨[0x12345678, 0x12345679, 0x1234567A, 0x1234567B,
        0x1234567C, 0x1234567D, 0x1234567E, 0x1234567F],
       [0, 0x80000000, 0x00000140],
       [0x03FFFC, 0xFFFFFFFF, 0xFFFFFFFF, 0xFFFFFFFF,
        0xFFFFFFFF, 0xFFFFFFFF, 0xFFFFFFFF, 0xFFFFFFFF]⟩ := by
  simp only [process_block_header, real_block_header]
  rfl

theorem mining_setup_test_hw0 (tNow : Nat) :
    mining_setup_test tNow hw0 = ⟨0, setupTestEvts.reverse⟩ := by
  simp only [mining_setup_test]
  rw [process_test_params]
  decide

theorem mining_setup_real_hw0 (tNow : Nat) :
    mining_setup_real tNow hw0 = ⟨0, setupRealEvts.reverse⟩ := by
  simp only [mining_setup_real]
  rw [process_real_params]
  decide

theorem bankWrites_setup_test (tNow : Nat) :
    bankWrites (mining_setup_test tNow hw0).tr = testRunBankPairs := by
  rw [mining_setup_test_hw0]
  decide

theorem bankWrites_setup_real (tNow : Nat) :
    bankWrites (mining_setup_real tNow hw0).tr = realRunBankPairs := by
  rw [mining_setup_real_hw0]
  decide

theorem stopAssertCount_setup_test (tNow : Nat) :
    stopAssertCount (mining_setup_test tNow hw0).tr = 0 := by
  rw [mining_setup_test_hw0]
  decide

theorem stopAssertCount_setup_real (tNow : Nat) :
    stopAssertCount (mining_setup_real tNow hw0).tr = 0 := by
  rw [mining_setup_real_hw0]
  decide

/-! ### Lemmas about the test program's polling loop -/

@[simp]
theorem specMapOk_rd_status (v : Nat) :
    specMapOk (Event.rd (MINER_BASE_ADDR + REG_STATUS) v) = true := rfl

@[simp]
theorem specMapOk_rd_golden (v : Nat) :
    specMapOk (Event.rd (MINER_BASE_ADDR + REG_GOLDEN_NONCE) v) = true := rfl

@[simp]
theorem specMapOk_rd_cur (v : Nat) :
    specMapOk (Event.rd (MINER_BASE_ADDR + REG_CUR_NONCE) v) = true := rfl

@[simp]
theorem specMapOk_sleep (u : Nat) : specMapOk (Event.sleep u) = true := rfl

theorem test_poll_aux_mapOk (env : Nat → Nat) :
    ∀ fuel s, ((test_poll_aux env fuel s).2).tr.all specMapOk = s.tr.all specMapOk := by
  intro fuel
  induction fuel with
  | zero => intro s; rfl
  | succ fuel ih =>
    intro s
    rw [test_poll_aux]
    dsimp only
    split_ifs with h1 h2
    · simp [read_reg, read_register, List.all_cons]
    · simp [read_reg, read_register, List.all_cons]
    · rw [ih]
      simp [read_reg, read_register, uSleep, List.all_cons]

theorem test_poll_aux_envZero_none :
    ∀ fuel s, (test_poll_aux envZero fuel s).1 = none := by
  intro fuel
  induction fuel with
  | zero => intro s; rfl
  | succ fuel ih =>
    intro s
    rw [test_poll_aux]
    dsimp only
    rw [if_neg (by simp [read_reg, read_register, readVal, envZero, U32]),
        if_neg (by simp [read_reg, read_register, readVal, envZero, U32])]
    exact ih _

theorem test_poll_aux_count (env : Nat → Nat) :
    ∀ fuel s, stopAssertCount ((test_poll_aux env fuel s).2).tr = stopAssertCount s.tr := by
  intro fuel
  induction fuel with
  | zero => intro s; rfl
  | succ fuel ih =>
    intro s
    rw [test_poll_aux]
    dsimp only
    split_ifs with h1 h2
    · simp [read_reg, read_register, stopAssertCount, List.countP_cons]
    · simp [read_reg, read_register, stopAssertCount, List.countP_cons]
    · rw [ih]
      simp [read_reg, read_register, uSleep, stopAssertCount, List.countP_cons]

/-! ## The claims -/

/-- C3: for every mining job, `write_block_header` (the parameter loader)
leaves the read counter unchanged and appends, chronologically, exactly the
19 writes `loadJobEvents`, whose addresses are the 19 distinct values
`MINER_BASE_ADDR + bank_base + 4*index` for index ranges 0..7 (midstate bank
0x100), 0..2 (residual bank 0x200), 0..7 (target bank 0x300), in bank order
midstate → residual → target. -/
theorem claim3_load_job_offsets (mid res tgt : Nat → Nat) (s : HwState) :
    (write_block_header mid res tgt s).reads = s.reads ∧
    (write_block_header mid res tgt s).tr.reverse =
      s.tr.reverse ++ loadJobEvents mid res tgt ∧
    (loadJobEvents mid res tgt).map evAddr = loadJobAddrs ∧
    loadJobAddrs.Nodup ∧
    loadJobAddrs =
      (List.range 8).map (fun i => MINER_BASE_ADDR + (0x100 + i * 4)) ++
        (List.range 3).map (fun i => MINER_BASE_ADDR + (0x200 + i * 4)) ++
        (List.range 8).map (fun i => MINER_BASE_ADDR + (0x300 + i * 4)) := by
  have hr8 : List.range 8 = [0, 1, 2, 3, 4, 5, 6, 7] := by decide
  have hr3 : List.range 3 = [0, 1, 2] := by decide
  refine ⟨?_, ?_, rfl, by decide, by decide⟩
  · simp [write_block_header, write_indexed, hr8, hr3, write_reg, write_register]
  · simp [write_block_header, write_indexed, hr8, hr3, write_reg, write_register,
      loadJobEvents, U32, List.reverse_cons, List.append_assoc]

/-- C5: `stop_mining` (the SDK's stop, also used as its reset) appends
exactly assert (write 1), a 1000 µs hold, then deassert (write 0) to the
reset control; the last event before returning is the deassert, so the
function never returns with reset still asserted.  The test program's inline
reset pulse has the same shape. -/
theorem claim5_reset_pulse (s : HwState) :
    (stop_mining s).tr.reverse =
      s.tr.reverse ++
        [Event.wr (MINER_BASE_ADDR + CTRL_SRST) 1, Event.sleep 1000,
         Event.wr (MINER_BASE_ADDR + CTRL_SRST) 0] ∧
    (stop_mining s).tr.head? = some (Event.wr (MINER_BASE_ADDR + CTRL_SRST) 0) ∧
    (test_reset_pulse s).tr.reverse =
      s.tr.reverse ++
        [Event.wr (MINER_BASE_ADDR + REG_RESET) 1, Event.sleep 1000,
         Event.wr (MINER_BASE_ADDR + REG_RESET) 0] := by
  refine ⟨?_, rfl, ?_⟩ <;>
    simp [stop_mining, test_reset_pulse, write_reg, write_register, uSleep, U32]

/-- C6: `get_current_nonce` performs, in order: write 1 to the current-nonce
request control, sleep 1000 µs, write 0 to that control, and only then read
the current-nonce status register, returning exactly that read value. -/
theorem claim6_current_nonce_handshake (env : Nat → Nat) (s : HwState) :
    get_current_nonce env s =
      (readVal env s.reads,
       ⟨s.reads + 1,
        Event.rd (MINER_BASE_ADDR + STATUS_CURRENT_NONCE) (readVal env s.reads) ::
          Event.wr (MINER_BASE_ADDR + CTRL_CURRENT_HASH_REQ) 0 ::
          Event.sleep 1000 ::
          Event.wr (MINER_BASE_ADDR + CTRL_CURRENT_HASH_REQ) 1 :: s.tr⟩) := rfl

/-- C8: `process_block_header` sets the residual words to
{header nonce, padding marker 0x80000000, bit-length 0x140} and builds the
target by placing the 3-byte mantissa of `bits` in word 0 and filling words
1–7 with 0xFFFFFFFF; for the test header (`bits = 0x1D00FFFF`) the target is
word0 = 0x00FFFF and words 1–7 = 0xFFFFFFFF. -/
theorem claim8_derive_job_target (tNow : Nat) (h : BitcoinBlockHeader) :
    (process_block_header h).residual_data = [U32 h.nonce, 0x80000000, 0x00000140] ∧
    (process_block_header h).target =
      (U32 h.bits &&& 0xFFFFFF) :: List.replicate 7 0xFFFFFFFF ∧
    (process_block_header (test_block_header tNow)).target =
      0x00FFFF :: List.replicate 7 0xFFFFFFFF := by
  refine ⟨rfl, rfl, ?_⟩
  rw [process_test_params]
  rfl

/-- C9: in the SDK `main`, choice 1 runs the easy-difficulty test loop,
choice 2 runs the real-difficulty loop, and any other choice falls back to
the test loop. -/
theorem claim9_mode_selection (choice : Int) (tNow : Nat) (env : Nat → Nat) (fuel : Nat) :
    (choice = 1 →
      sdk_main_run choice tNow env fuel =
        mining_loop_test tNow env fuel (stop_mining hw0)) ∧
    (choice = 2 →
      sdk_main_run choice tNow env fuel =
        mining_loop_real tNow env fuel (stop_mining hw0)) ∧
    (choice ≠ 1 → choice ≠ 2 →
      sdk_main_run choice tNow env fuel =
        mining_loop_test tNow env fuel (stop_mining hw0)) := by
  refine ⟨fun h => ?_, fun h => ?_, fun h1 h2 => ?_⟩
  · simp [sdk_main_run, h]
  · simp [sdk_main_run, h]
  · simp [sdk_main_run, h1, h2]

/-- C9 witness: an invalid choice (7) runs the test-mode loop. -/
theorem claim9_witness :
    (7 : Int) ≠ 1 ∧ (7 : Int) ≠ 2 ∧
    sdk_main_run 7 0 envZero 0 = mining_loop_test 0 envZero 0 (stop_mining hw0) :=
  ⟨by decide, by decide,
   (claim9_mode_selection 7 0 envZero 0).2.2 (by decide) (by decide)⟩

/-- C2 counterexample: the SDK driver does not follow the spec's register
map.  `check_found` reads the found bit at `MINER_BASE_ADDR + 0x000` — an
offset the map reserves for the (write-only) reset control and which is not
among the map's read offsets {0x008, 0x00C, 0x014} — and `get_golden_nonce`
reads the golden nonce at offset 0x008, not 0x00C. -/
theorem claim2_counterexample :
    (check_found envZero hw0).2.tr = [Event.rd (MINER_BASE_ADDR + 0x000) 0] ∧
    ((check_found envZero hw0).2.tr).all specMapOk = false ∧
    (get_golden_nonce envZero hw0).2.tr = [Event.rd (MINER_BASE_ADDR + 0x008) 0] ∧
    MINER_BASE_ADDR + 0x008 ≠ MINER_BASE_ADDR + 0x00C := by
  refine ⟨rfl, by decide, rfl, by decide⟩

/-- C2 amended: the standalone test program performs every read and write at
`MINER_BASE_ADDR + offset` with offsets drawn from the spec's register map
(reads only at 0x008/0x00C/0x014, writes only at the 0x000/0x004/0x010
controls or in the parameter banks).  The SDK driver's writes also follow the
map (reset 0x000, start 0x004, request 0x010), but its reads sit at offsets
found = 0x000, not-found = 0x004, golden nonce = 0x008 and current nonce =
0x00C instead of the map's 0x008/0x00C/0x014. -/
theorem claim2_register_map :
    (∀ env fuel, ((test_main_run env fuel).2).tr.all specMapOk = true) ∧
    (∀ env s, (check_found env s).2.tr =
        Event.rd (MINER_BASE_ADDR + STATUS_FOUND) (readVal env s.reads) :: s.tr ∧
      STATUS_FOUND = 0x000) ∧
    (∀ env s, (get_golden_nonce env s).2.tr =
        Event.rd (MINER_BASE_ADDR + STATUS_GOLDEN_NONCE) (readVal env s.reads) :: s.tr ∧
      STATUS_GOLDEN_NONCE = 0x008) ∧
    (∀ env s, (get_current_nonce env s).2.tr =
        Event.rd (MINER_BASE_ADDR + STATUS_CURRENT_NONCE) (readVal env s.reads) ::
          Event.wr (MINER_BASE_ADDR + CTRL_CURRENT_HASH_REQ) 0 :: Event.sleep 1000 ::
          Event.wr (MINER_BASE_ADDR + CTRL_CURRENT_HASH_REQ) 1 :: s.tr ∧
      STATUS_CURRENT_NONCE = 0x00C) ∧
    (∀ s : HwState, (stop_mining s).tr.take 3 = stopTailRev ∧ CTRL_SRST = 0x000) ∧
    (∀ s : HwState,
      (start_mining s).tr = Event.wr (MINER_BASE_ADDR + CTRL_START) 1 :: s.tr ∧
      CTRL_START = 0x004) := by
  refine ⟨?_, fun env s => ⟨rfl, rfl⟩, fun env s => ⟨rfl, rfl⟩, fun env s => ⟨rfl, rfl⟩,
    fun s => ⟨rfl, rfl⟩, fun s => ⟨rfl, rfl⟩⟩
  intro env fuel
  show ((test_poll_aux env fuel _).2).tr.all specMapOk = true
  rw [test_poll_aux_mapOk]
  decide

/-- C1 counterexample: the test program's polling loop has no iteration cap.
Under the status oracle that always reads 0 it is still running after 1001
full iterations (one more than the easy-mode cap of 1000), and it has issued
no stop/reset write, contradicting the claim that every polling loop
terminates within cap+1 iterations and forces `stop()` past the cap. -/
theorem claim1_counterexample :
    (test_poll_aux envZero 1001 hw0).1 = none ∧
    stopAssertCount ((test_poll_aux envZero 1001 hw0).2).tr = 0 :=
  ⟨test_poll_aux_envZero_none 1001 hw0, test_poll_aux_count envZero 1001 hw0⟩

/-- C1 amended: the SDK polling loops do satisfy the cap bound.  With fuel
cap+1 (1001 in test mode, 10001 in real mode) the loop has already finished
(`isSome`), and giving it any more fuel changes nothing — it never iterates
past the cap.  Under the all-zero status oracle (nothing ever found or
exhausted) the outcome past the cap is `timedOut` and the trace ends with
the stop pulse.  The standalone test program's loop, by contrast, has no cap
(see the counterexample). -/
theorem claim1_loop_cap (tNow : Nat) (env : Nat → Nat) (fuel : Nat) :
    (1001 ≤ fuel →
      mining_loop_test tNow env fuel hw0 = mining_loop_test tNow env 1001 hw0 ∧
      ((mining_loop_test tNow env fuel hw0).1).isSome = true) ∧
    (10001 ≤ fuel →
      mining_loop_real tNow env fuel hw0 = mining_loop_real tNow env 10001 hw0 ∧
      ((mining_loop_real tNow env fuel hw0).1).isSome = true) ∧
    (1001 ≤ fuel →
      (mining_loop_test tNow envZero fuel hw0).1 = some JobOutcome.timedOut ∧
      ((mining_loop_test tNow envZero fuel hw0).2).tr.take 3 = stopTailRev) ∧
    (10001 ≤ fuel →
      (mining_loop_real tNow envZero fuel hw0).1 = some JobOutcome.timedOut) := by
  refine ⟨fun h => ⟨?_, ?_⟩, fun h => ⟨?_, ?_⟩, fun h => ⟨?_, ?_⟩, fun h => ?_⟩
  · exact mining_loop_aux_mono 1000 10 env fuel 1001 0 (mining_setup_test tNow hw0)
      (by omega) (by omega) (by omega) (by omega)
  · exact mining_loop_aux_isSome 1000 10 env fuel 0 (mining_setup_test tNow hw0)
      (by omega) (by omega)
  · exact mining_loop_aux_mono 10000 100 env fuel 10001 0 (mining_setup_real tNow hw0)
      (by omega) (by omega) (by omega) (by omega)
  · exact mining_loop_aux_isSome 10000 100 env fuel 0 (mining_setup_real tNow hw0)
      (by omega) (by omega)
  · exact mining_loop_aux_envZero 1000 10 fuel 0 (mining_setup_test tNow hw0)
      (by omega) (by omega)
  · exact mining_loop_aux_take3 1000 10 envZero fuel 0 (mining_setup_test tNow hw0)
      (mining_loop_aux_isSome 1000 10 envZero fuel 0 (mining_setup_test tNow hw0)
        (by omega) (by omega))
  · exact mining_loop_aux_envZero 10000 100 fuel 0 (mining_setup_real tNow hw0)
      (by omega) (by omega)

/-- C1 witness: at fuel 10001 both hypotheses hold, extra fuel is irrelevant
for the test loop, and the real loop times out under the all-zero oracle. -/
theorem claim1_witness :
    1001 ≤ 10001 ∧ 10001 ≤ 10001 ∧
    mining_loop_test 0 envZero 10001 hw0 = mining_loop_test 0 envZero 1001 hw0 ∧
    (mining_loop_real 0 envZero 10001 hw0).1 = some JobOutcome.timedOut :=
  ⟨by omega, by omega,
   ((claim1_loop_cap 0 envZero 10001).1 (by omega)).1,
   (claim1_loop_cap 0 envZero 10001).2.2.2 (by omega)⟩

/-- C4: in each SDK polling-loop iteration the found status is the first
decision read (read index `(step_pre …).reads`, at the found-status
address); when its bit 0 is set the step returns `found` carrying exactly
the *next* read (index +1, the golden-nonce register) — the golden nonce is
read only after the found check — and when bit 0 is clear, the read at
index +1 is instead the not-found/exhausted register, i.e. found is always
checked before exhausted.  The test program's loop does the same with its
single status read: bit 0 decides `found` (golden nonce read afterwards)
before bit 1 is consulted. -/
theorem claim4_found_checked_first (cap n : Nat) (env : Nat → Nat) (it : Nat)
    (s : HwState) (fuel : Nat) :
    (readVal env (step_pre n env it s).reads &&& 1 ≠ 0 →
      mining_step cap n env it s =
        (some (JobOutcome.found (readVal env ((step_pre n env it s).reads + 1))),
         stop_mining
           ⟨(step_pre n env it s).reads + 1 + 1,
            Event.rd (MINER_BASE_ADDR + STATUS_GOLDEN_NONCE)
                (readVal env ((step_pre n env it s).reads + 1)) ::
              Event.rd (MINER_BASE_ADDR + STATUS_FOUND)
                (readVal env (step_pre n env it s).reads) ::
              (step_pre n env it s).tr⟩)) ∧
    (readVal env (step_pre n env it s).reads &&& 1 = 0 →
      (∃ rest, ((mining_step cap n env it s).2).tr =
          rest ++
            Event.rd (MINER_BASE_ADDR + STATUS_NOT_FOUND)
                (readVal env ((step_pre n env it s).reads + 1)) ::
              Event.rd (MINER_BASE_ADDR + STATUS_FOUND)
                (readVal env (step_pre n env it s).reads) ::
              (step_pre n env it s).tr) ∧
      (mining_step cap n env it s).1 =
        (if readVal env ((step_pre n env it s).reads + 1) ≠ 0 then
          some JobOutcome.exhausted
         else if it + 1 > cap then some JobOutcome.timedOut else none)) ∧
    (readVal env s.reads &&& 0x01 ≠ 0 →
      test_poll_aux env (fuel + 1) s =
        (some (JobOutcome.found (readVal env (s.reads + 1))),
         ⟨s.reads + 1 + 1,
          Event.rd (MINER_BASE_ADDR + REG_GOLDEN_NONCE) (readVal env (s.reads + 1)) ::
            Event.rd (MINER_BASE_ADDR + REG_STATUS) (readVal env s.reads) :: s.tr⟩)) ∧
    (readVal env s.reads &&& 0x01 = 0 → readVal env s.reads &&& 0x02 ≠ 0 →
      test_poll_aux env (fuel + 1) s =
        (some JobOutcome.exhausted,
         ⟨s.reads + 1,
          Event.rd (MINER_BASE_ADDR + REG_STATUS) (readVal env s.reads) :: s.tr⟩)) := by
  refine ⟨fun h => ?_, fun h => ?_, fun h => ?_, fun h h2 => ?_⟩
  · unfold mining_step
    simp only [check_found, get_golden_nonce, read_register]
    rw [if_pos h]
  · unfold mining_step
    simp only [check_found, get_golden_nonce, read_register]
    rw [if_neg (by simpa using h)]
    constructor
    · split_ifs
      · exact ⟨stopTailRev, rfl⟩
      · exact ⟨stopTailRev ++ [Event.sleep 100000], rfl⟩
      · exact ⟨[Event.sleep 100000], rfl⟩
    · split_ifs <;> rfl
  · rw [test_poll_aux]
    simp only [read_reg, read_register]
    rw [if_pos h]
  · rw [test_poll_aux]
    simp only [read_reg, read_register]
    rw [if_neg (by simpa using h), if_pos h2]

/-- C4 witness: under the all-ones oracle (found bit set) at iteration 1,
the step reports `found` with the value of the read performed right after
the found check. -/
theorem claim4_witness :
    (readVal envOne (step_pre 10 envOne 1 hw0).reads &&& 1 ≠ 0) ∧
    mining_step 1000 10 envOne 1 hw0 =
      (some (JobOutcome.found (readVal envOne ((step_pre 10 envOne 1 hw0).reads + 1))),
       stop_mining
         ⟨(step_pre 10 envOne 1 hw0).reads + 1 + 1,
          Event.rd (MINER_BASE_ADDR + STATUS_GOLDEN_NONCE)
              (readVal envOne ((step_pre 10 envOne 1 hw0).reads + 1)) ::
            Event.rd (MINER_BASE_ADDR + STATUS_FOUND)
              (readVal envOne (step_pre 10 envOne 1 hw0).reads) ::
            (step_pre 10 envOne 1 hw0).tr⟩) :=
  ⟨by decide, (claim4_found_checked_first 1000 10 envOne 1 hw0 0).1 (by decide)⟩

/-- C7 counterexample: the test program's polling session can terminate
(here: golden nonce found on the first poll) without ever invoking `stop()`
— no reset assert appears in its trace — contradicting the claim that every
terminal outcome is preceded by exactly one `stop()`. -/
theorem claim7_counterexample :
    (test_poll_aux envOne 1 hw0).1 = some (JobOutcome.found 1) ∧
    stopAssertCount ((test_poll_aux envOne 1 hw0).2).tr = 0 := by
  refine ⟨by decide, by decide⟩

/-- C7 amended: every SDK polling session (test or real mode) terminates
with exactly one of the three `JobOutcome` values — the loop's only results,
none of them an error — and `stop_mining` is invoked exactly once, as the
final action before the loop returns (the trace ends with the stop pulse).
The standalone test program's loop does not invoke `stop()` at all (see the
counterexample). -/
theorem claim7_outcomes_stop_once (tNow : Nat) (env : Nat → Nat) (fuel : Nat) :
    (1001 ≤ fuel →
      ((mining_loop_test tNow env fuel hw0).1).isSome = true ∧
      stopAssertCount ((mining_loop_test tNow env fuel hw0).2).tr = 1 ∧
      ((mining_loop_test tNow env fuel hw0).2).tr.take 3 = stopTailRev) ∧
    (10001 ≤ fuel →
      ((mining_loop_real tNow env fuel hw0).1).isSome = true ∧
      stopAssertCount ((mining_loop_real tNow env fuel hw0).2).tr = 1 ∧
      ((mining_loop_real tNow env fuel hw0).2).tr.take 3 = stopTailRev) := by
  have ht : ∀ f, 1001 ≤ f →
      ((mining_loop_aux 1000 10 env f 0 (mining_setup_test tNow hw0)).1).isSome = true :=
    fun f hf =>
      mining_loop_aux_isSome 1000 10 env f 0 (mining_setup_test tNow hw0)
        (by omega) (by omega)
  have hr : ∀ f, 10001 ≤ f →
      ((mining_loop_aux 10000 100 env f 0 (mining_setup_real tNow hw0)).1).isSome = true :=
    fun f hf =>
      mining_loop_aux_isSome 10000 100 env f 0 (mining_setup_real tNow hw0)
        (by omega) (by omega)
  refine ⟨fun h => ⟨ht fuel h, ?_, ?_⟩, fun h => ⟨hr fuel h, ?_, ?_⟩⟩
  · rw [show mining_loop_test tNow env fuel hw0 =
        mining_loop_aux 1000 10 env fuel 0 (mining_setup_test tNow hw0) from rfl,
      mining_loop_aux_count, stopAssertCount_setup_test, ht fuel h]
    simp
  · exact mining_loop_aux_take3 1000 10 env fuel 0 (mining_setup_test tNow hw0) (ht fuel h)
  · rw [show mining_loop_real tNow env fuel hw0 =
        mining_loop_aux 10000 100 env fuel 0 (mining_setup_real tNow hw0) from rfl,
      mining_loop_aux_count, stopAssertCount_setup_real, hr fuel h]
    simp
  · exact mining_loop_aux_take3 10000 100 env fuel 0 (mining_setup_real tNow hw0) (hr fuel h)

/-- C7 witness: at fuel 1001 the test-mode session has finished and its
trace contains exactly one stop assert, ending in the stop pulse. -/
theorem claim7_witness :
    1001 ≤ 1001 ∧
    ((mining_loop_test 0 envZero 1001 hw0).1).isSome = true ∧
    stopAssertCount ((mining_loop_test 0 envZero 1001 hw0).2).tr = 1 ∧
    ((mining_loop_test 0 envZero 1001 hw0).2).tr.take 3 = stopTailRev :=
  ⟨by omega, (claim7_outcomes_stop_once 0 envZero 1001).1 (by omega)⟩

/-- C10: the parameter-bank writes any SDK mining run performs are exactly
the 19 of the setup phase, chronologically target bank first (the constant
array of `set_test_difficulty` resp. `set_real_difficulty`), then midstate,
then residual; the polling loop itself never writes a bank.  The target that
`process_block_header` derives from the header's difficulty bits is not
among the written values — the written target words differ from the derived
ones in both modes — so the hardware target is independent of `bits`. -/
theorem claim10_actual_target_writes (tNow : Nat) (env : Nat → Nat) (fuel : Nat) :
    bankWrites ((mining_loop_test tNow env fuel hw0).2).tr = testRunBankPairs ∧
    bankWrites ((mining_loop_real tNow env fuel hw0).2).tr = realRunBankPairs ∧
    (testRunBankPairs.take 8).map Prod.snd ≠
      (process_block_header (test_block_header tNow)).target ∧
    (realRunBankPairs.take 8).map Prod.snd ≠
      (process_block_header (real_block_header tNow)).target := by
  refine ⟨?_, ?_, ?_, ?_⟩
  · rw [show mining_loop_test tNow env fuel hw0 =
        mining_loop_aux 1000 10 env fuel 0 (mining_setup_test tNow hw0) from rfl,
      mining_loop_aux_bank, bankWrites_setup_test]
  · rw [show mining_loop_real tNow env fuel hw0 =
        mining_loop_aux 10000 100 env fuel 0 (mining_setup_real tNow hw0) from rfl,
      mining_loop_aux_bank, bankWrites_setup_real]
  · rw [process_test_params]; decide
  · rw [process_real_params]; decide

end FpgaMining
